import Mathlib

/-!
Verification of the credential-hashing module of this repository.

The repository contains three revisions of a pluggable password hashing
pair `hashPassword` / `verifyPassword` handed to the auth library, and a
module-level cached `getAuth` factory:

* `src/auth.ts` (primary): WebCrypto PBKDF2, stored format `saltHex:keyHex`
  (two colon-separated hex fields), iteration count hardcoded inline (100),
  derived key requested as 256 bits, salt drawn as 16 random bytes, and a
  hand-rolled constant-time comparison loop (`result |= a[i] ^ b[i]`).
* `src/unnamed/part_010`: WebCrypto PBKDF2, stored format
  `PBKDF2$iterations$saltHex$hashHex` (four dollar-separated fields); the
  verifier parses the iteration count out of the stored string.
* `src/unnamed/part_009`: scrypt with the same two-field colon format.

The key-derivation primitive (`crypto.subtle.deriveBits` for PBKDF2,
`scrypt`) and the random source (`crypto.getRandomValues`) are platform
primitives external to the repository; they are modelled as explicit
function parameters (`kdf`, `rand`).  Everything the repository itself
computes — hex encoding/decoding, string assembly, splitting, `parseInt`,
`Uint8Array` coercions, the comparison loop, the control flow of
try/catch — is embedded executably below, following the JavaScript
semantics of the operations the source uses.
-/

/-- JavaScript digit character for a value below 16: `'0'..'9'` then
`'a'..'f'`, as produced by `Number.prototype.toString(16)`. -/
def digitCh (n : Nat) : Char :=
  if n < 10 then Char.ofNat (48 + n) else Char.ofNat (87 + n)

/-- Fuel-driven base-`base` rendering of a natural number, accumulating
digits on the right; models `Number.prototype.toString(base)` for
non-negative integers (the fuel is always sufficient at call sites). -/
def natToBaseGo (base : Nat) : Nat → Nat → List Char → List Char
  | 0, _, acc => acc
  | fuel + 1, n, acc =>
    if n < base then digitCh n :: acc
    else natToBaseGo base fuel (n / base) (digitCh (n % base) :: acc)

/-- JavaScript `n.toString(16)` for a non-negative integer `n`. -/
def natToHex (n : Nat) : List Char := natToBaseGo 16 (n + 1) n []

/-- JavaScript decimal rendering of a non-negative integer, as used by
template interpolation of a number. -/
def natToDec (n : Nat) : List Char := natToBaseGo 10 (n + 1) n []

/-- JavaScript `String.prototype.padStart(2, '0')`. -/
def padStart2 (l : List Char) : List Char := List.replicate (2 - l.length) '0' ++ l

/-- Hex rendering of one byte as done by the source:
`b.toString(16).padStart(2, '0')`. -/
def byteToHex (b : Nat) : List Char := padStart2 (natToHex b)

/-- Hex rendering of a byte array:
`Array.from(bytes).map(b => b.toString(16).padStart(2, '0')).join('')`
(also `bufferToHex` in `src/unnamed/part_010`). -/
def hexEncode (bs : List Nat) : List Char := (bs.map byteToHex).flatten

/-- Whitespace skipped by JavaScript `parseInt` before parsing. -/
def isJsSpace (c : Char) : Bool :=
  c = ' ' || c = '\t' || c = '\n' || c = '\r' || c.toNat = 11 || c.toNat = 12 || c.toNat = 160

/-- Hexadecimal digit recognizer of JavaScript `parseInt(_, 16)`. -/
def isHexDigit (c : Char) : Bool :=
  (48 ≤ c.toNat && c.toNat ≤ 57) || (97 ≤ c.toNat && c.toNat ≤ 102) ||
    (65 ≤ c.toNat && c.toNat ≤ 70)

/-- Decimal digit recognizer of JavaScript `parseInt(_, 10)`. -/
def isDecDigit (c : Char) : Bool := 48 ≤ c.toNat && c.toNat ≤ 57

/-- Numeric value of a digit character (junk 0 on non-digits; only applied
to characters accepted by the corresponding recognizer). -/
def digitVal (c : Char) : Nat :=
  if 48 ≤ c.toNat && c.toNat ≤ 57 then c.toNat - 48
  else if 97 ≤ c.toNat && c.toNat ≤ 102 then c.toNat - 87
  else if 65 ≤ c.toNat && c.toNat ≤ 70 then c.toNat - 55
  else 0

/-- JavaScript `parseInt(_, 16)` drops a leading `0x`/`0X` marker. -/
def dropHexMark (l : List Char) : List Char :=
  if l.getD 0 ' ' = '0' && (l.getD 1 ' ' = 'x' || l.getD 1 ' ' = 'X') then l.drop 2 else l

/-- Value of the longest leading run of base-`base` digits, `none` when that
run is empty (JavaScript `NaN`). -/
def digitsVal (accept : Char → Bool) (base : Nat) (l : List Char) : Option Nat :=
  let ds := l.takeWhile accept
  if ds.isEmpty then none else some (ds.foldl (fun a c => base * a + digitVal c) 0)

/-- JavaScript `parseInt(s, 16)`: skip whitespace, optional sign, optional
`0x` marker, then the longest run of hex digits; `none` models `NaN`. -/
def parseIntHex (s : List Char) : Option Int :=
  let t := s.dropWhile isJsSpace
  if t.head? = some '-' then
    (digitsVal isHexDigit 16 (dropHexMark (t.drop 1))).map (fun n => -(n : Int))
  else if t.head? = some '+' then
    (digitsVal isHexDigit 16 (dropHexMark (t.drop 1))).map (fun n => (n : Int))
  else (digitsVal isHexDigit 16 (dropHexMark t)).map (fun n => (n : Int))

/-- JavaScript `parseInt(s, 10)` (no `0x` marker in radix 10). -/
def parseIntDec (s : List Char) : Option Int :=
  let t := s.dropWhile isJsSpace
  if t.head? = some '-' then
    (digitsVal isDecDigit 10 (t.drop 1)).map (fun n => -(n : Int))
  else if t.head? = some '+' then
    (digitsVal isDecDigit 10 (t.drop 1)).map (fun n => (n : Int))
  else (digitsVal isDecDigit 10 t).map (fun n => (n : Int))

/-- Storing a JavaScript number into a `Uint8Array` slot: `NaN` becomes 0,
other integers are reduced modulo 256. -/
def toUint8 : Option Int → Nat
  | none => 0
  | some i => (i % 256).toNat

/-- Character matched by `.` in a JavaScript regular expression (anything
but a line terminator). -/
def isDotCh (c : Char) : Bool :=
  c ≠ '\n' && c ≠ '\r' && c.toNat ≠ 8232 && c.toNat ≠ 8233

/-- Scanner of the global regular expression `/.{2}/g`: at each position
try a two-character window of non-terminator characters, consuming two
characters on a match and one otherwise; the `skip` flag marks a character
already consumed as the second half of the previous match. -/
def mpGo (skip : Bool) : List Char → List (List Char)
  | [] => []
  | a :: rest =>
    if skip then mpGo false rest
    else
      match rest.head? with
      | some b => if isDotCh a && isDotCh b then [a, b] :: mpGo true rest else mpGo false rest
      | none => []

/-- All matches of the global regular expression `/.{2}/g`. -/
def matchPairs (l : List Char) : List (List Char) := mpGo false l

/-- JavaScript `s.match(/.{2}/g)`, which is `null` (here `none`) when there
is no match. -/
def jsMatchPairs (s : List Char) : Option (List (List Char)) :=
  if matchPairs s = [] then none else some (matchPairs s)

/-- Consecutive two-character chunks of an even-length string, as read by
the `substring(i, i+2)` loop of `hexToBuffer` in `src/unnamed/part_010`. -/
def chunk2 : List Char → List (List Char)
  | a :: b :: rest => [a, b] :: chunk2 rest
  | _ => []

/-- JavaScript `s.split(sep)` for a one-character separator. -/
def jsSplitChar (sep : Char) : List Char → List (List Char)
  | [] => [[]]
  | c :: rest =>
    if c = sep then [] :: jsSplitChar sep rest
    else
      match jsSplitChar sep rest with
      | f :: fs => (c :: f) :: fs
      | [] => [[c]]

/-- UTF-8 bytes of a string, as produced by `new TextEncoder().encode(s)`. -/
def utf8Bytes (s : String) : List Nat := s.toUTF8.toList.map (fun b => b.toNat)

/-- The comparison loop of `verifyPassword` in `src/auth.ts`
(`result |= derivedKey[i] ^ expectedKey[i]` over every index), instrumented
with the number of executed iterations: the first component is the final
`result` accumulator, the second the iteration count. -/
def cmpLoop : Nat → List Nat → List Nat → Nat × Nat
  | r, a :: as, b :: bs =>
    let p := cmpLoop (r ||| (a ^^^ b)) as bs
    (p.1, p.2 + 1)
  | r, _, _ => (r, 0)

namespace Auth

/-! ## The primary implementation, `src/auth.ts`

`crypto.subtle.deriveBits({name:'PBKDF2', salt, iterations, hash:'SHA-256'},
key, 256)` on the imported password material is a platform primitive; it is
modelled by the parameter `kdf`, taking the UTF-8 password bytes, the salt
bytes and the iteration count (the constant 256-bit output length is left
implicit).  The inline iteration count (literally `100` in both functions
of this revision) is the parameter `iterations`, and the 16 random salt
bytes from `crypto.getRandomValues(new Uint8Array(16))` are the parameter
`salt` (drawn by `hashPasswordRand` from an abstract random source). -/

/-- Key-derivation primitive signature: password bytes, salt bytes and
iteration count to derived-key bytes. -/
def Kdf : Type := List Nat → List Nat → Nat → List Nat

/-- The `hashPassword` of `src/auth.ts`: derive a key from the password and
the fresh salt, hex-encode both, and store them as `saltHex:keyHex`. -/
def hashPassword (kdf : Kdf) (iterations : Nat) (salt : List Nat) (password : String) :
    String :=
  let derivedKey := kdf (utf8Bytes password) salt iterations
  let saltHex := hexEncode salt
  let keyHex := hexEncode derivedKey
  String.mk (saltHex ++ ':' :: keyHex)

/-- The `hashPassword` call as the worker executes it, with the salt drawn
from the platform random source: `crypto.getRandomValues(new Uint8Array(16))`. -/
def hashPasswordRand (kdf : Kdf) (iterations : Nat) (rand : Nat → List Nat)
    (password : String) : String :=
  hashPassword kdf iterations (rand 16) password

/-- Body of the `try` block of `verifyPassword` in `src/auth.ts`;
`Except.error` marks the points where the JavaScript code throws (the
non-null assertion on a failed `match`). -/
def verifyBody (kdf : Kdf) (iterations : Nat) (hashedPassword password : List Char) :
    Except Unit Bool :=
  let parts := jsSplitChar ':' hashedPassword
  let saltHex := parts.getD 0 []
  let keyHex := parts.getD 1 []
  if saltHex.isEmpty || keyHex.isEmpty then .ok false
  else
    match jsMatchPairs saltHex with
    | none => .error ()
    | some saltChunks =>
      match jsMatchPairs keyHex with
      | none => .error ()
      | some keyChunks =>
        let salt := saltChunks.map (fun ch => toUint8 (parseIntHex ch))
        let expectedKey := keyChunks.map (fun ch => toUint8 (parseIntHex ch))
        let derivedKey := kdf (utf8Bytes (String.mk password)) salt iterations
        if derivedKey.length ≠ expectedKey.length then .ok false
        else .ok ((cmpLoop 0 derivedKey expectedKey).1 == 0)

/-- The `verifyPassword` of `src/auth.ts`: the `try`/`catch` wrapper turns
every thrown exception into `false`. -/
def verifyPassword (kdf : Kdf) (iterations : Nat) (hashedPassword password : String) :
    Bool :=
  match verifyBody kdf iterations hashedPassword.data password.data with
  | .ok b => b
  | .error _ => false

/-- Parse outcome of the stored-credential string under the checks of
`verifyPassword` in `src/auth.ts`: the recovered salt bytes and expected
key bytes, or `none` when any check fails or the code would throw. -/
def parseColonCred (hashedPassword : List Char) : Option (List Nat × List Nat) :=
  let parts := jsSplitChar ':' hashedPassword
  let saltHex := parts.getD 0 []
  let keyHex := parts.getD 1 []
  if saltHex.isEmpty || keyHex.isEmpty then none
  else
    match jsMatchPairs saltHex with
    | none => none
    | some saltChunks =>
      match jsMatchPairs keyHex with
      | none => none
      | some keyChunks =>
        some (saltChunks.map (fun ch => toUint8 (parseIntHex ch)),
          keyChunks.map (fun ch => toUint8 (parseIntHex ch)))

end Auth

namespace Pbkdf2Tagged

/-! ## The tagged four-field implementation, `src/unnamed/part_010` -/

/-- Configuration constant `PBKDF2_ITERATIONS` of `src/unnamed/part_010`. -/
def PBKDF2_ITERATIONS : Nat := 25000

/-- Configuration constant `PBKDF2_SALT_LENGTH` of `src/unnamed/part_010`. -/
def PBKDF2_SALT_LENGTH : Nat := 16

/-- Configuration constant `PBKDF2_HASH_LENGTH` of `src/unnamed/part_010`. -/
def PBKDF2_HASH_LENGTH : Nat := 32

/-- Configuration constant `PBKDF2_ALGORITHM` of `src/unnamed/part_010`. -/
def PBKDF2_ALGORITHM : String := "PBKDF2"

/-- The `hexToBuffer` of `src/unnamed/part_010`.  `new Uint8Array(hex.length / 2)`
truncates the fractional length of an odd-length string to ⌊n/2⌋ (the
TypedArray length goes through ToIndex, which truncates in the V8 runtime
this code targets), each `substring(i, i+2)` pair is parsed with
`parseInt(_, 16)` and stored (NaN becoming 0), and the final out-of-range
store attempted for an unpaired trailing character is silently ignored; so
the result is the parsed complete leading pairs and no path throws. -/
def hexToBuffer (hex : List Char) : List Nat :=
  (chunk2 hex).map (fun ch => toUint8 (parseIntHex ch))

/-- The `hashPassword` of `src/unnamed/part_010`: format
`PBKDF2$iterations$saltHex$hashHex`.  `iterConst` stands for the module
constant `PBKDF2_ITERATIONS` used at hashing time. -/
def hashPassword (kdf : Auth.Kdf) (iterConst : Nat) (salt : List Nat)
    (password : String) : String :=
  let derivedBits := kdf (utf8Bytes password) salt iterConst
  let saltHex := hexEncode salt
  let hashHex := hexEncode derivedBits
  String.mk (PBKDF2_ALGORITHM.data ++ '$' :: (natToDec iterConst ++ '$' ::
    (saltHex ++ '$' :: hashHex)))

/-- Validation that `crypto.subtle.deriveBits` applies to its `iterations`
member (an `[EnforceRange] unsigned long` that must be non-zero): `NaN`, a
non-positive value or a value at or above `2^32` throws. -/
def deriveBitsIter : Option Int → Except Unit Nat
  | none => .error ()
  | some i => if i ≤ 0 || 4294967296 ≤ i then .error () else .ok i.toNat

/-- Body of the `try` block of `verifyPassword` in `src/unnamed/part_010`,
with `Except.error` at the one point the JavaScript code throws: an
invalid iteration count reaching `deriveBits`. -/
def verifyBody (kdf : Auth.Kdf) (hashString password : List Char) : Except Unit Bool :=
  let parts := jsSplitChar '$' hashString
  if parts.length ≠ 4 then .ok false
  else
    let algorithm := parts.getD 0 []
    let iterationsStr := parts.getD 1 []
    let saltHex := parts.getD 2 []
    let storedHashHex := parts.getD 3 []
    if algorithm ≠ PBKDF2_ALGORITHM.data then .ok false
    else
      let salt := hexToBuffer saltHex
      let storedHash := hexToBuffer storedHashHex
      match deriveBitsIter (parseIntDec iterationsStr) with
      | .error e => .error e
      | .ok iterations =>
        let derivedBits := kdf (utf8Bytes (String.mk password)) salt iterations
        if storedHash.length ≠ derivedBits.length then .ok false
        else .ok (storedHash == derivedBits)

/-- The `verifyPassword` of `src/unnamed/part_010`; the trailing
`crypto.subtle.timingSafeEqual` on equal-length views is byte equality, and
the `try`/`catch` wrapper turns every thrown exception into `false`. -/
def verifyPassword (kdf : Auth.Kdf) (hashString password : String) : Bool :=
  match verifyBody kdf hashString.data password.data with
  | .ok b => b
  | .error _ => false

/-- Parse outcome of the stored string under the checks of `verifyPassword`
in `src/unnamed/part_010`: recovered iteration count, salt bytes and stored
hash bytes, or `none` when a field-count, algorithm-tag or iteration-count
check fails (the hex fields themselves always decode, odd trailing
characters being truncated). -/
def parseDollarCred (hashString : List Char) : Option (Nat × List Nat × List Nat) :=
  let parts := jsSplitChar '$' hashString
  if parts.length ≠ 4 then none
  else
    let algorithm := parts.getD 0 []
    let iterationsStr := parts.getD 1 []
    let saltHex := parts.getD 2 []
    let storedHashHex := parts.getD 3 []
    if algorithm ≠ PBKDF2_ALGORITHM.data then none
    else
      match deriveBitsIter (parseIntDec iterationsStr) with
      | .error _ => none
      | .ok iterations => some (iterations, hexToBuffer saltHex, hexToBuffer storedHashHex)

end Pbkdf2Tagged

namespace ScryptAuth

/-! ## The scrypt implementation, `src/unnamed/part_009`

Its `verifyPassword` splits the stored string on `:`, decodes the key
field with `Buffer.from(key, "hex")`, re-derives with
`scrypt(password, salt, 64, { N: 1024 })` — where `salt` is the stored
hex *text*, which scrypt UTF-8-encodes — and compares with
`timingSafeEqual` after a length check.  The scrypt primitive is the
parameter `scryptFn` (password bytes, salt bytes, key length, cost `N`);
no path of this verifier throws, every failure resolves the promise with
`false`. -/

/-- Node `Buffer.from(s, "hex")`: decode complete leading hex pairs,
stopping at the first pair containing a non-hex character and ignoring an
unpaired trailing character. -/
def bufferFromHex : List Char → List Nat
  | a :: b :: rest =>
    if isHexDigit a && isHexDigit b then (16 * digitVal a + digitVal b) :: bufferFromHex rest
    else []
  | _ => []

/-- The `verifyPassword` of `src/unnamed/part_009`. -/
def verifyPassword (scryptFn : List Nat → List Nat → Nat → Nat → List Nat)
    (hashedPassword password : String) : Bool :=
  let parts := jsSplitChar ':' hashedPassword.data
  let salt := parts.getD 0 []
  let key := parts.getD 1 []
  if salt.isEmpty || key.isEmpty then false
  else
    let keyBuffer := bufferFromHex key
    let derivedKey := scryptFn (utf8Bytes password) (utf8Bytes (String.mk salt)) 64 1024
    if derivedKey.length ≠ keyBuffer.length then false
    else derivedKey == keyBuffer

/-- Parse outcome of the stored string under the checks of `verifyPassword`
in `src/unnamed/part_009`: the salt text and the decoded expected key
bytes, or `none` when a colon field is missing or empty. -/
def parseColonScrypt (stored : List Char) : Option (List Char × List Nat) :=
  let parts := jsSplitChar ':' stored
  let salt := parts.getD 0 []
  let key := parts.getD 1 []
  if salt.isEmpty || key.isEmpty then none
  else some (salt, bufferFromHex key)

end ScryptAuth

namespace AuthFactory

/-! ## The cached `getAuth` factories of `src/auth.ts`

Both revisions of `getAuth` keep a module-level mutable `cachedAuth`
variable.  The `betterAuth({...})` library call is external; what matters
for the caching behaviour is only the identity of each constructed
instance and the environment captured in its configuration, so an instance
is modelled as an allocation identifier paired with the environment it was
built from, and the module state as the cache cell plus the next free
identifier. -/

/-- The D1 database binding; `hasPrepare` models
`typeof env.DB.prepare === 'function'`. -/
structure DBBinding where
  hasPrepare : Bool
deriving DecidableEq

/-- The `Env` record of `src/auth.ts`; `DB` is `none` when the binding is
undefined (as can happen on initial local-dev startup) and `SESSIONS` is
the truthiness of the KV binding. -/
structure Env where
  DB : Option DBBinding
  SESSIONS : Bool
  BETTER_AUTH_SECRET : String
  GOOGLE_CLIENT_ID : String
  GOOGLE_CLIENT_SECRET : String
deriving DecidableEq

/-- A constructed `betterAuth` instance: its allocation identity and the
environment its configuration captured. -/
structure AuthInstance where
  id : Nat
  env : Env
deriving DecidableEq

/-- Module-level mutable state: the `cachedAuth` cell and the next
allocation identifier. -/
structure AuthState where
  cachedAuth : Option AuthInstance
  nextId : Nat
deriving DecidableEq

/-- The validity test of the first `getAuth` revision:
`env.DB && typeof env.DB.prepare === 'function' && env.SESSIONS`. -/
def isEnvValid (env : Env) : Bool :=
  (match env.DB with
   | some db => db.hasPrepare
   | none => false) && env.SESSIONS

/-- The caching test of the second `getAuth` revision:
`env.DB && typeof env.DB.prepare === 'function'` (no `SESSIONS` conjunct). -/
def shouldCache (env : Env) : Bool :=
  match env.DB with
  | some db => db.hasPrepare
  | none => false

/-- The first `getAuth` revision of `src/auth.ts`: return the cached
instance when the environment is valid and a cache exists; otherwise build
a fresh instance, caching it only when the environment is valid. -/
def getAuth (env : Env) (st : AuthState) : AuthInstance × AuthState :=
  let fresh : AuthInstance × AuthState :=
    let authInstance : AuthInstance := ⟨st.nextId, env⟩
    if isEnvValid env then (authInstance, ⟨some authInstance, st.nextId + 1⟩)
    else (authInstance, ⟨st.cachedAuth, st.nextId + 1⟩)
  match st.cachedAuth with
  | some cached => if isEnvValid env then (cached, st) else fresh
  | none => fresh

/-- The second `getAuth` revision of `src/auth.ts`: fill the empty cache
when caching is allowed, return the cached instance when available, and
otherwise build an uncached fresh instance. -/
def getAuthV2 (env : Env) (st : AuthState) : AuthInstance × AuthState :=
  let st1 : AuthState :=
    if shouldCache env && st.cachedAuth.isNone then
      ⟨some ⟨st.nextId, env⟩, st.nextId + 1⟩
    else st
  match st1.cachedAuth with
  | some cached =>
    if shouldCache env then (cached, st1)
    else (⟨st1.nextId, env⟩, ⟨st1.cachedAuth, st1.nextId + 1⟩)
  | none => (⟨st1.nextId, env⟩, ⟨st1.cachedAuth, st1.nextId + 1⟩)

end AuthFactory

/-- The `hashPassword` call of `src/unnamed/part_010` as the worker executes
it, with the salt drawn from the platform random source:
`crypto.getRandomValues(new Uint8Array(PBKDF2_SALT_LENGTH))`. -/
def Pbkdf2Tagged.hashPasswordRand (kdf : Auth.Kdf) (iterConst : Nat)
    (rand : Nat → List Nat) (password : String) : String :=
  Pbkdf2Tagged.hashPassword kdf iterConst (rand Pbkdf2Tagged.PBKDF2_SALT_LENGTH) password

/-- Concrete key-derivation function used in witnesses and counterexamples:
32 output bytes, each the iteration count reduced modulo 256.  It satisfies
the platform contract of `deriveBits` with a 256-bit requested length
(32 bytes, every byte below 256) and distinguishes iteration counts. -/
def kdfConst : Auth.Kdf := fun _ _ iterations => List.replicate 32 (iterations % 256)

/-- Concrete random source used in witnesses: `n` zero bytes, satisfying
the platform contract that `getRandomValues` fills exactly the requested
number of bytes. -/
def randZero : Nat → List Nat := fun n => List.replicate n 0

/-- Concrete scrypt stand-in used in witnesses: `keylen` bytes, each the
cost parameter reduced modulo 256. -/
def scryptConst : List Nat → List Nat → Nat → Nat → List Nat :=
  fun _ _ keylen n => List.replicate keylen (n % 256)

/-! ## Arithmetic and encoding lemmas -/

theorem lor_eq_zero_iff (a b : Nat) : a ||| b = 0 ↔ a = 0 ∧ b = 0 := by
  constructor
  · intro h
    constructor <;>
      · apply Nat.eq_of_testBit_eq
        intro i
        have hb := congrArg (fun x => Nat.testBit x i) h
        simp only [Nat.testBit_lor, Nat.zero_testBit, Bool.or_eq_false_iff] at hb
        simp [hb.1, hb.2]
  · rintro ⟨rfl, rfl⟩; rfl

theorem digitCh_facts : ∀ n < 16, isHexDigit (digitCh n) = true ∧
    isDotCh (digitCh n) = true ∧ digitVal (digitCh n) = n ∧
    digitCh n ≠ ':' ∧ digitCh n ≠ '$' ∧ isJsSpace (digitCh n) = false ∧
    digitCh n ≠ '-' ∧ digitCh n ≠ '+' ∧ digitCh n ≠ 'x' ∧ digitCh n ≠ 'X' := by
  decide

theorem digitCh_dec_facts : ∀ n < 10, isDecDigit (digitCh n) = true := by decide

theorem digitCh_ne_zero_ch : ∀ n < 16, 1 ≤ n → digitCh n ≠ '0' := by decide

theorem byteToHex_eq (b : Nat) (hb : b < 256) :
    byteToHex b = [digitCh (b / 16), digitCh (b % 16)] := by
  by_cases h : b < 16
  · have hd : b / 16 = 0 := Nat.div_eq_of_lt h
    have hm : b % 16 = b := Nat.mod_eq_of_lt h
    have h1 : natToBaseGo 16 (b + 1) b [] = [digitCh b] := by simp [natToBaseGo, h]
    rw [byteToHex, natToHex, h1, hd, hm]
    have h0 : digitCh 0 = '0' := by decide
    show List.replicate 1 '0' ++ [digitCh b] = _
    rw [h0]
    rfl
  · obtain ⟨f, hf⟩ : ∃ f, b = f + 1 := ⟨b - 1, by omega⟩
    have h2 : b / 16 < 16 := by omega
    have e1 : natToBaseGo 16 (b + 1) b [] = natToBaseGo 16 b (b / 16) [digitCh (b % 16)] := by
      simp [natToBaseGo, h]
    have e2 : natToBaseGo 16 b (b / 16) [digitCh (b % 16)] =
        [digitCh (b / 16), digitCh (b % 16)] := by
      rw [hf] at h2 ⊢
      simp [natToBaseGo, h2]
    rw [byteToHex, natToHex, e1, e2]
    rfl

theorem byteToHex_length (b : Nat) (hb : b < 256) : (byteToHex b).length = 2 := by
  rw [byteToHex_eq b hb]; rfl

theorem byteToHex_mem (b : Nat) (hb : b < 256) :
    ∀ c ∈ byteToHex b, isHexDigit c = true ∧ isDotCh c = true := by
  rw [byteToHex_eq b hb]
  have h1 := digitCh_facts (b / 16) (by omega)
  have h2 := digitCh_facts (b % 16) (by omega)
  intro c hc
  simp only [List.mem_cons, List.not_mem_nil, or_false] at hc
  rcases hc with rfl | rfl
  · exact ⟨h1.1, h1.2.1⟩
  · exact ⟨h2.1, h2.2.1⟩

theorem isHexDigit_ne (c : Char) (h : isHexDigit c = true) : c ≠ ':' ∧ c ≠ '$' := by
  constructor <;> rintro rfl <;> simp [isHexDigit] at h

theorem parseIntHex_byteToHex (b : Nat) (hb : b < 256) :
    parseIntHex (byteToHex b) = some (b : Int) := by
  rw [byteToHex_eq b hb]
  have h1 := digitCh_facts (b / 16) (by omega)
  have h2 := digitCh_facts (b % 16) (by omega)
  have hdw : List.dropWhile isJsSpace [digitCh (b / 16), digitCh (b % 16)] =
      [digitCh (b / 16), digitCh (b % 16)] := by
    simp [List.dropWhile, h1.2.2.2.2.2.1]
  have hmark : dropHexMark [digitCh (b / 16), digitCh (b % 16)] =
      [digitCh (b / 16), digitCh (b % 16)] := by
    simp [dropHexMark, h2.2.2.2.2.2.2.2.1, h2.2.2.2.2.2.2.2.2]
  simp only [parseIntHex, hdw, List.head?]
  rw [if_neg (by simpa using h1.2.2.2.2.2.2.1), if_neg (by simpa using h1.2.2.2.2.2.2.2.1)]
  rw [hmark]
  simp only [digitsVal, List.takeWhile, h1.1, h2.1, List.isEmpty_cons, List.foldl]
  simp only [if_false, Bool.false_eq_true, Option.map_some]
  rw [h1.2.2.1, h2.2.2.1]
  have : 16 * (16 * 0 + b / 16) + b % 16 = b := by omega
  rw [this]
  simp

theorem toUint8_coe (b : Nat) (hb : b < 256) : toUint8 (some (b : Int)) = b := by
  simp only [toUint8]
  omega

theorem hexEncode_cons (b : Nat) (bs : List Nat) :
    hexEncode (b :: bs) = byteToHex b ++ hexEncode bs := by
  simp [hexEncode]

theorem hexEncode_length (bs : List Nat) (h : ∀ b ∈ bs, b < 256) :
    (hexEncode bs).length = 2 * bs.length := by
  induction bs with
  | nil => rfl
  | cons b bs ih =>
    rw [hexEncode_cons, List.length_append,
      byteToHex_length b (h b (List.mem_cons_self b bs)),
      ih (fun x hx => h x (List.mem_cons_of_mem b hx)), List.length_cons]
    omega

theorem hexEncode_mem (bs : List Nat) (h : ∀ b ∈ bs, b < 256) :
    ∀ c ∈ hexEncode bs, isHexDigit c = true ∧ isDotCh c = true := by
  induction bs with
  | nil => intro c hc; simp [hexEncode] at hc
  | cons b bs ih =>
    intro c hc
    rw [hexEncode_cons] at hc
    rcases List.mem_append.mp hc with hc | hc
    · exact byteToHex_mem b (h b (List.mem_cons_self b bs)) c hc
    · exact ih (fun x hx => h x (List.mem_cons_of_mem b hx)) c hc

theorem mpGo_cons2 (a b : Char) (rest : List Char) (ha : isDotCh a = true)
    (hb : isDotCh b = true) : mpGo false (a :: b :: rest) = [a, b] :: mpGo false rest := by
  simp [mpGo, ha, hb]

theorem matchPairs_hexEncode (bs : List Nat) (h : ∀ b ∈ bs, b < 256) :
    matchPairs (hexEncode bs) = bs.map byteToHex := by
  induction bs with
  | nil => simp [hexEncode, matchPairs, mpGo]
  | cons b bs ih =>
    have hb := h b (List.mem_cons_self b bs)
    have hrest : ∀ x ∈ bs, x < 256 := fun x hx => h x (List.mem_cons_of_mem b hx)
    rw [hexEncode_cons, byteToHex_eq b hb]
    have hd1 := (digitCh_facts (b / 16) (by omega)).2.1
    have hd2 := (digitCh_facts (b % 16) (by omega)).2.1
    show mpGo false (digitCh (b / 16) :: digitCh (b % 16) :: hexEncode bs) = _
    rw [mpGo_cons2 _ _ _ hd1 hd2]
    rw [show mpGo false (hexEncode bs) = matchPairs (hexEncode bs) from rfl, ih hrest]
    simp [byteToHex_eq b hb]

theorem chunk2_hexEncode (bs : List Nat) (h : ∀ b ∈ bs, b < 256) :
    chunk2 (hexEncode bs) = bs.map byteToHex := by
  induction bs with
  | nil => rfl
  | cons b bs ih =>
    have hb := h b (List.mem_cons_self b bs)
    have hrest : ∀ x ∈ bs, x < 256 := fun x hx => h x (List.mem_cons_of_mem b hx)
    rw [hexEncode_cons, byteToHex_eq b hb]
    show chunk2 (digitCh (b / 16) :: digitCh (b % 16) :: hexEncode bs) = _
    rw [chunk2, ih hrest, List.map_cons, byteToHex_eq b hb]

theorem hexDecode_encode (bs : List Nat) (h : ∀ b ∈ bs, b < 256) :
    (bs.map byteToHex).map (fun ch => toUint8 (parseIntHex ch)) = bs := by
  rw [List.map_map]
  have : ∀ b ∈ bs, (fun ch => toUint8 (parseIntHex ch)) (byteToHex b) = b := by
    intro b hb
    simp only [Function.comp]
    rw [parseIntHex_byteToHex b (h b hb), toUint8_coe b (h b hb)]
  calc bs.map ((fun ch => toUint8 (parseIntHex ch)) ∘ byteToHex)
      = bs.map id := List.map_congr_left this
    _ = bs := List.map_id bs

theorem hexEncode_inj (bs1 bs2 : List Nat) (h1 : ∀ b ∈ bs1, b < 256)
    (h2 : ∀ b ∈ bs2, b < 256) (he : hexEncode bs1 = hexEncode bs2) : bs1 = bs2 := by
  have hm : bs1.map byteToHex = bs2.map byteToHex := by
    rw [← matchPairs_hexEncode bs1 h1, ← matchPairs_hexEncode bs2 h2, he]
  calc bs1 = (bs1.map byteToHex).map (fun ch => toUint8 (parseIntHex ch)) :=
        (hexDecode_encode bs1 h1).symm
    _ = (bs2.map byteToHex).map (fun ch => toUint8 (parseIntHex ch)) := by rw [hm]
    _ = bs2 := hexDecode_encode bs2 h2

/-! ## Split lemmas -/

theorem jsSplitChar_of_not_mem (sep : Char) (l : List Char) (h : sep ∉ l) :
    jsSplitChar sep l = [l] := by
  induction l with
  | nil => rfl
  | cons c rest ih =>
    have hc : ¬c = sep := fun hc => h (hc ▸ List.mem_cons_self c rest)
    have hrest : sep ∉ rest := fun hr => h (List.mem_cons_of_mem c hr)
    rw [jsSplitChar, if_neg hc, ih hrest]

theorem jsSplitChar_append (sep : Char) (A B : List Char) (h : sep ∉ A) :
    jsSplitChar sep (A ++ sep :: B) = A :: jsSplitChar sep B := by
  induction A with
  | nil => simp [jsSplitChar]
  | cons a A ih =>
    have ha : ¬a = sep := fun hc => h (hc ▸ List.mem_cons_self a A)
    have hA : sep ∉ A := fun hr => h (List.mem_cons_of_mem a hr)
    rw [List.cons_append, jsSplitChar, if_neg ha, ih hA]

/-! ## Comparison-loop lemmas -/

theorem cmpLoop_fst (a : List Nat) :
    ∀ (b : List Nat) (r : Nat), a.length = b.length →
      ((cmpLoop r a b).1 = 0 ↔ r = 0 ∧ a = b) := by
  induction a with
  | nil =>
    intro b r hlen
    have hb : b = [] := by
      cases b with
      | nil => rfl
      | cons x xs => simp at hlen
    subst hb
    simp [cmpLoop]
  | cons x xs ih =>
    intro b r hlen
    cases b with
    | nil => simp at hlen
    | cons y ys =>
      have hlen' : xs.length = ys.length := by simpa using hlen
      rw [cmpLoop]
      show ((cmpLoop (r ||| (x ^^^ y)) xs ys).1 = 0 ↔ _)
      rw [ih ys (r ||| (x ^^^ y)) hlen', lor_eq_zero_iff, Nat.xor_eq_zero]
      constructor
      · rintro ⟨⟨hr, hxy⟩, hxs⟩
        exact ⟨hr, by rw [hxy, hxs]⟩
      · rintro ⟨hr, hc⟩
        injection hc with h1 h2
        exact ⟨⟨hr, h1⟩, h2⟩

theorem cmpLoop_snd (a : List Nat) :
    ∀ (b : List Nat) (r : Nat), (cmpLoop r a b).2 = min a.length b.length := by
  induction a with
  | nil =>
    intro b r
    cases b <;> simp [cmpLoop]
  | cons x xs ih =>
    intro b r
    cases b with
    | nil => simp [cmpLoop]
    | cons y ys =>
      rw [cmpLoop]
      show (cmpLoop (r ||| (x ^^^ y)) xs ys).2 + 1 = _
      rw [ih ys (r ||| (x ^^^ y))]
      simp only [List.length_cons]
      omega

/-! ## Decimal rendering lemmas -/

theorem natToBaseGo_acc (base : Nat) (hb : 2 ≤ base) :
    ∀ n fuel acc, n < fuel →
      natToBaseGo base fuel n acc = natToBaseGo base (n + 1) n [] ++ acc := by
  intro n
  induction n using Nat.strong_induction_on with
  | _ n ih =>
    intro fuel acc hlt
    obtain ⟨f, rfl⟩ : ∃ f, fuel = f + 1 := ⟨fuel - 1, by omega⟩
    by_cases hn : n < base
    · simp [natToBaseGo, hn]
    · have hm : n / base < n := Nat.div_lt_self (by omega) (by omega)
      simp only [natToBaseGo, if_neg hn]
      rw [ih (n / base) hm f _ (by omega), ih (n / base) hm n _ (by omega)]
      simp

theorem natToDec_lt (n : Nat) (h : n < 10) : natToDec n = [digitCh n] := by
  simp [natToDec, natToBaseGo, h]

theorem natToDec_ge (n : Nat) (h : 10 ≤ n) :
    natToDec n = natToDec (n / 10) ++ [digitCh (n % 10)] := by
  have hn10 : ¬n < 10 := by omega
  have step : natToBaseGo 10 (n + 1) n [] = natToBaseGo 10 n (n / 10) [digitCh (n % 10)] := by
    simp [natToBaseGo, hn10]
  rw [natToDec, step]
  exact natToBaseGo_acc 10 (by omega) (n / 10) n [digitCh (n % 10)]
    (by have := Nat.div_lt_self (by omega : 0 < n) (by omega : 1 < 10); omega)

theorem natToDec_all_digits (n : Nat) : ∀ c ∈ natToDec n, isDecDigit c = true := by
  induction n using Nat.strong_induction_on with
  | _ n ih =>
    by_cases h : n < 10
    · rw [natToDec_lt n h]
      intro c hc
      simp only [List.mem_singleton] at hc
      subst hc
      exact digitCh_dec_facts n h
    · rw [natToDec_ge n (by omega)]
      intro c hc
      rcases List.mem_append.mp hc with hc | hc
      · exact ih (n / 10) (Nat.div_lt_self (by omega) (by omega)) c hc
      · simp only [List.mem_singleton] at hc
        subst hc
        exact digitCh_dec_facts (n % 10) (by omega)

theorem natToDec_ne_nil (n : Nat) : natToDec n ≠ [] := by
  by_cases h : n < 10
  · rw [natToDec_lt n h]; simp
  · rw [natToDec_ge n (by omega)]; simp

theorem decVal_natToDec (n : Nat) :
    (natToDec n).foldl (fun a c => 10 * a + digitVal c) 0 = n := by
  induction n using Nat.strong_induction_on with
  | _ n ih =>
    by_cases h : n < 10
    · rw [natToDec_lt n h]
      show 10 * 0 + digitVal (digitCh n) = n
      rw [(digitCh_facts n (by omega)).2.2.1]
      omega
    · rw [natToDec_ge n (by omega), List.foldl_append]
      rw [ih (n / 10) (Nat.div_lt_self (by omega) (by omega))]
      show 10 * (n / 10) + digitVal (digitCh (n % 10)) = n
      rw [(digitCh_facts (n % 10) (by omega)).2.2.1]
      omega

theorem char_toNat_eq_of_eq {c d : Char} (h : c = d) : c.toNat = d.toNat := by rw [h]

theorem isDecDigit_props (c : Char) (h : isDecDigit c = true) :
    isJsSpace c = false ∧ c ≠ '-' ∧ c ≠ '+' := by
  have hn : 48 ≤ c.toNat ∧ c.toNat ≤ 57 := by
    simpa [isDecDigit, Bool.and_eq_true, decide_eq_true_eq] using h
  refine ⟨?_, ?_, ?_⟩
  · rw [Bool.eq_false_iff]
    intro hs
    simp only [isJsSpace, Bool.or_eq_true, decide_eq_true_eq] at hs
    rcases hs with (((((h1 | h1) | h1) | h1) | h1) | h1) | h1 <;>
      first
      | (rw [h1] at hn; exact absurd hn (by decide))
      | omega
  · intro h1; rw [h1] at hn; exact absurd hn (by decide)
  · intro h1; rw [h1] at hn; exact absurd hn (by decide)

theorem takeWhile_all {p : Char → Bool} :
    ∀ l : List Char, (∀ c ∈ l, p c = true) → l.takeWhile p = l := by
  intro l
  induction l with
  | nil => intro _; rfl
  | cons a l ih =>
    intro h
    rw [List.takeWhile_cons, h a (List.mem_cons_self a l),
      ih (fun c hc => h c (List.mem_cons_of_mem a hc))]
    simp

theorem parseIntDec_natToDec (n : Nat) : parseIntDec (natToDec n) = some (n : Int) := by
  obtain ⟨d, rest, hd⟩ : ∃ d rest, natToDec n = d :: rest := by
    cases hnd : natToDec n with
    | nil => exact absurd hnd (natToDec_ne_nil n)
    | cons d rest => exact ⟨d, rest, rfl⟩
  have hall := natToDec_all_digits n
  have hdd : isDecDigit d = true := hall d (by rw [hd]; exact List.mem_cons_self _ _)
  have hprops := isDecDigit_props d hdd
  have hdw : (natToDec n).dropWhile isJsSpace = d :: rest := by
    rw [hd, List.dropWhile_cons, hprops.1]
    simp
  have hne1 : ¬(d :: rest : List Char).head? = some '-' := by simp [hprops.2.1]
  have hne2 : ¬(d :: rest : List Char).head? = some '+' := by simp [hprops.2.2]
  have hval : digitsVal isDecDigit 10 (d :: rest) = some n := by
    have htw : (d :: rest).takeWhile isDecDigit = d :: rest := by
      rw [← hd]
      exact takeWhile_all _ hall
    simp only [digitsVal, htw, List.isEmpty_cons, Bool.false_eq_true, if_false]
    rw [← hd, decVal_natToDec n]
  simp only [parseIntDec, hdw, if_neg hne1, if_neg hne2, hval, Option.map_some]
  simp

theorem natToDec_no_dollar (n : Nat) : '$' ∉ natToDec n := by
  intro hmem
  have := natToDec_all_digits n '$' hmem
  exact absurd this (by decide)

theorem natToDec_no_colon (n : Nat) : ':' ∉ natToDec n := by
  intro hmem
  have := natToDec_all_digits n ':' hmem
  exact absurd this (by decide)

/-! ## Correspondence of the verifiers with their parse outcomes -/

theorem verifyPassword_parse (kdf : Auth.Kdf) (iterations : Nat) (stored password : String) :
    Auth.verifyPassword kdf iterations stored password =
      (match Auth.parseColonCred stored.data with
       | none => false
       | some (salt, expectedKey) =>
         let derivedKey := kdf (utf8Bytes password) salt iterations
         if derivedKey.length ≠ expectedKey.length then false
         else (cmpLoop 0 derivedKey expectedKey).1 == 0) := by
  unfold Auth.verifyPassword Auth.verifyBody Auth.parseColonCred
  by_cases hc : (((jsSplitChar ':' stored.data).getD 0 []).isEmpty ||
      ((jsSplitChar ':' stored.data).getD 1 []).isEmpty) = true
  · simp only [hc, if_true]
  · simp only [hc, if_false, Bool.false_eq_true]
    cases hm1 : jsMatchPairs ((jsSplitChar ':' stored.data).getD 0 []) with
    | none => simp
    | some sc =>
      cases hm2 : jsMatchPairs ((jsSplitChar ':' stored.data).getD 1 []) with
      | none => simp
      | some kc =>
        simp only []
        by_cases hlen : (kdf (utf8Bytes password) (sc.map (fun ch => toUint8 (parseIntHex ch)))
            iterations).length ≠ (kc.map (fun ch => toUint8 (parseIntHex ch))).length
        · simp_all [List.length_map]
        · simp_all [List.length_map]

theorem verifyPbkdf2_parse (kdf : Auth.Kdf) (hashString password : String) :
    Pbkdf2Tagged.verifyPassword kdf hashString password =
      (match Pbkdf2Tagged.parseDollarCred hashString.data with
       | none => false
       | some (iterations, salt, storedHash) =>
         let derivedBits := kdf (utf8Bytes password) salt iterations
         if storedHash.length ≠ derivedBits.length then false
         else storedHash == derivedBits) := by
  unfold Pbkdf2Tagged.verifyPassword Pbkdf2Tagged.verifyBody Pbkdf2Tagged.parseDollarCred
  by_cases h4 : (jsSplitChar '$' hashString.data).length ≠ 4
  · simp only [if_pos h4]
  · simp only [if_neg h4]
    by_cases halg : (jsSplitChar '$' hashString.data).getD 0 [] ≠
        Pbkdf2Tagged.PBKDF2_ALGORITHM.data
    · simp only [if_pos halg]
    · simp only [if_neg halg]
      cases hit : Pbkdf2Tagged.deriveBitsIter
          (parseIntDec ((jsSplitChar '$' hashString.data).getD 1 [])) with
      | error e => simp only [hit]
      | ok iterations =>
        simp only [hit]
        by_cases hlen : (Pbkdf2Tagged.hexToBuffer
            ((jsSplitChar '$' hashString.data).getD 3 [])).length ≠
            (kdf (utf8Bytes password)
              (Pbkdf2Tagged.hexToBuffer ((jsSplitChar '$' hashString.data).getD 2 []))
              iterations).length
        · simp only [if_pos hlen]
        · simp only [if_neg hlen]

theorem verifyScrypt_parse (scryptFn : List Nat → List Nat → Nat → Nat → List Nat)
    (stored password : String) :
    ScryptAuth.verifyPassword scryptFn stored password =
      (match ScryptAuth.parseColonScrypt stored.data with
       | none => false
       | some (salt, keyBuffer) =>
         let derivedKey := scryptFn (utf8Bytes password) (utf8Bytes (String.mk salt)) 64 1024
         if derivedKey.length ≠ keyBuffer.length then false
         else derivedKey == keyBuffer) := by
  unfold ScryptAuth.verifyPassword ScryptAuth.parseColonScrypt
  by_cases hc : (((jsSplitChar ':' stored.data).getD 0 []).isEmpty ||
      ((jsSplitChar ':' stored.data).getD 1 []).isEmpty) = true
  · simp only [hc, if_true]
  · simp only [hc, if_false, Bool.false_eq_true]

/-! ## Parse outcomes of freshly produced credentials -/

theorem hexEncode_no_colon (bs : List Nat) (h : ∀ b ∈ bs, b < 256) :
    ':' ∉ hexEncode bs := by
  intro hmem
  have hx := (hexEncode_mem bs h ':' hmem).1
  exact absurd hx (by decide)

theorem hexEncode_no_dollar (bs : List Nat) (h : ∀ b ∈ bs, b < 256) :
    '$' ∉ hexEncode bs := by
  intro hmem
  have hx := (hexEncode_mem bs h '$' hmem).1
  exact absurd hx (by decide)

theorem hexEncode_ne_nil (bs : List Nat) (h : ∀ b ∈ bs, b < 256) (hne : bs ≠ []) :
    hexEncode bs ≠ [] := by
  intro hnil
  have hl := hexEncode_length bs h
  rw [hnil] at hl
  simp only [List.length_nil] at hl
  have : bs.length ≠ 0 := fun h0 => hne (List.length_eq_zero.mp h0)
  omega

theorem jsMatchPairs_hexEncode (bs : List Nat) (h : ∀ b ∈ bs, b < 256) (hne : bs ≠ []) :
    jsMatchPairs (hexEncode bs) = some (bs.map byteToHex) := by
  unfold jsMatchPairs
  rw [matchPairs_hexEncode bs h]
  rw [if_neg (by simpa using hne)]

theorem parseColonCred_hash (kdf : Auth.Kdf) (iterations : Nat) (salt : List Nat)
    (password : String) (hsne : salt ≠ []) (hsb : ∀ b ∈ salt, b < 256)
    (hkne : kdf (utf8Bytes password) salt iterations ≠ [])
    (hkb : ∀ b ∈ kdf (utf8Bytes password) salt iterations, b < 256) :
    Auth.parseColonCred (Auth.hashPassword kdf iterations salt password).data =
      some (salt, kdf (utf8Bytes password) salt iterations) := by
  have hdata : (Auth.hashPassword kdf iterations salt password).data =
      hexEncode salt ++ ':' :: hexEncode (kdf (utf8Bytes password) salt iterations) := rfl
  have hsplit : jsSplitChar ':' (hexEncode salt ++ ':' ::
      hexEncode (kdf (utf8Bytes password) salt iterations)) =
      [hexEncode salt, hexEncode (kdf (utf8Bytes password) salt iterations)] := by
    rw [jsSplitChar_append ':' _ _ (hexEncode_no_colon salt hsb),
      jsSplitChar_of_not_mem ':' _ (hexEncode_no_colon _ hkb)]
  have hse : (hexEncode salt).isEmpty = false := by
    simpa using hexEncode_ne_nil salt hsb hsne
  have hke : (hexEncode (kdf (utf8Bytes password) salt iterations)).isEmpty = false := by
    simpa using hexEncode_ne_nil _ hkb hkne
  unfold Auth.parseColonCred
  rw [hdata, hsplit]
  simp [hse, hke, jsMatchPairs_hexEncode salt hsb hsne, jsMatchPairs_hexEncode _ hkb hkne,
    hexDecode_encode salt hsb, hexDecode_encode _ hkb]

theorem hexToBuffer_encode (bs : List Nat) (h : ∀ b ∈ bs, b < 256) :
    Pbkdf2Tagged.hexToBuffer (hexEncode bs) = bs := by
  unfold Pbkdf2Tagged.hexToBuffer
  rw [chunk2_hexEncode bs h, hexDecode_encode bs h]

theorem deriveBitsIter_natToDec (c : Nat) (hc1 : 0 < c) (hc2 : c < 4294967296) :
    Pbkdf2Tagged.deriveBitsIter (parseIntDec (natToDec c)) = .ok c := by
  have hcond : ((c : Int) ≤ 0 || 4294967296 ≤ (c : Int)) = false := by
    simp only [Bool.or_eq_false_iff, decide_eq_false_iff_not]
    constructor <;> push_cast <;> omega
  simp only [parseIntDec_natToDec c, Pbkdf2Tagged.deriveBitsIter, hcond,
    Bool.false_eq_true, if_false, Int.toNat_natCast]

theorem parseDollarCred_hash (kdf : Auth.Kdf) (c : Nat) (salt : List Nat)
    (password : String) (hc1 : 0 < c) (hc2 : c < 4294967296)
    (hsb : ∀ b ∈ salt, b < 256)
    (hkb : ∀ b ∈ kdf (utf8Bytes password) salt c, b < 256) :
    Pbkdf2Tagged.parseDollarCred (Pbkdf2Tagged.hashPassword kdf c salt password).data =
      some (c, salt, kdf (utf8Bytes password) salt c) := by
  have hdata : (Pbkdf2Tagged.hashPassword kdf c salt password).data =
      Pbkdf2Tagged.PBKDF2_ALGORITHM.data ++ '$' :: (natToDec c ++ '$' ::
        (hexEncode salt ++ '$' :: hexEncode (kdf (utf8Bytes password) salt c))) := rfl
  have halg : '$' ∉ Pbkdf2Tagged.PBKDF2_ALGORITHM.data := by decide
  have hsplit : jsSplitChar '$' (Pbkdf2Tagged.PBKDF2_ALGORITHM.data ++ '$' ::
      (natToDec c ++ '$' :: (hexEncode salt ++ '$' ::
        hexEncode (kdf (utf8Bytes password) salt c)))) =
      [Pbkdf2Tagged.PBKDF2_ALGORITHM.data, natToDec c, hexEncode salt,
        hexEncode (kdf (utf8Bytes password) salt c)] := by
    rw [jsSplitChar_append '$' _ _ halg, jsSplitChar_append '$' _ _ (natToDec_no_dollar c),
      jsSplitChar_append '$' _ _ (hexEncode_no_dollar salt hsb),
      jsSplitChar_of_not_mem '$' _ (hexEncode_no_dollar _ hkb)]
  unfold Pbkdf2Tagged.parseDollarCred
  rw [hdata, hsplit]
  simp [hexToBuffer_encode salt hsb, hexToBuffer_encode _ hkb,
    deriveBitsIter_natToDec c hc1 hc2]

/-! ## Field structure of freshly produced credentials -/

theorem kdfConst_spec : ∀ p s i, (kdfConst p s i).length = 32 ∧ ∀ b ∈ kdfConst p s i, b < 256 := by
  intro p s i
  constructor
  · simp [kdfConst]
  · intro b hb
    simp only [kdfConst, List.mem_replicate] at hb
    omega

theorem hashPassword_split (kdf : Auth.Kdf) (iterations : Nat) (salt : List Nat)
    (password : String) (hsb : ∀ b ∈ salt, b < 256)
    (hkb : ∀ b ∈ kdf (utf8Bytes password) salt iterations, b < 256) :
    jsSplitChar ':' (Auth.hashPassword kdf iterations salt password).data =
      [hexEncode salt, hexEncode (kdf (utf8Bytes password) salt iterations)] := by
  have hdata : (Auth.hashPassword kdf iterations salt password).data =
      hexEncode salt ++ ':' :: hexEncode (kdf (utf8Bytes password) salt iterations) := rfl
  rw [hdata, jsSplitChar_append ':' _ _ (hexEncode_no_colon salt hsb),
    jsSplitChar_of_not_mem ':' _ (hexEncode_no_colon _ hkb)]

theorem hashPbkdf2_split (kdf : Auth.Kdf) (c : Nat) (salt : List Nat)
    (password : String) (hsb : ∀ b ∈ salt, b < 256)
    (hkb : ∀ b ∈ kdf (utf8Bytes password) salt c, b < 256) :
    jsSplitChar '$' (Pbkdf2Tagged.hashPassword kdf c salt password).data =
      [Pbkdf2Tagged.PBKDF2_ALGORITHM.data, natToDec c, hexEncode salt,
        hexEncode (kdf (utf8Bytes password) salt c)] := by
  have hdata : (Pbkdf2Tagged.hashPassword kdf c salt password).data =
      Pbkdf2Tagged.PBKDF2_ALGORITHM.data ++ '$' :: (natToDec c ++ '$' ::
        (hexEncode salt ++ '$' :: hexEncode (kdf (utf8Bytes password) salt c))) := rfl
  have halg : '$' ∉ Pbkdf2Tagged.PBKDF2_ALGORITHM.data := by decide
  rw [hdata, jsSplitChar_append '$' _ _ halg,
    jsSplitChar_append '$' _ _ (natToDec_no_dollar c),
    jsSplitChar_append '$' _ _ (hexEncode_no_dollar salt hsb),
    jsSplitChar_of_not_mem '$' _ (hexEncode_no_dollar _ hkb)]

theorem colon_data_no_dollar (kdf : Auth.Kdf) (iterations : Nat) (salt : List Nat)
    (password : String) (hsb : ∀ b ∈ salt, b < 256)
    (hkb : ∀ b ∈ kdf (utf8Bytes password) salt iterations, b < 256) :
    '$' ∉ (Auth.hashPassword kdf iterations salt password).data := by
  have hdata : (Auth.hashPassword kdf iterations salt password).data =
      hexEncode salt ++ ':' :: hexEncode (kdf (utf8Bytes password) salt iterations) := rfl
  rw [hdata]
  intro hmem
  rcases List.mem_append.mp hmem with hm | hm
  · exact hexEncode_no_dollar salt hsb hm
  · rcases List.mem_cons.mp hm with he | hm
    · exact absurd he (by decide)
    · exact hexEncode_no_dollar _ hkb hm

theorem dollar_data_no_colon (kdf : Auth.Kdf) (c : Nat) (salt : List Nat)
    (password : String) (hsb : ∀ b ∈ salt, b < 256)
    (hkb : ∀ b ∈ kdf (utf8Bytes password) salt c, b < 256) :
    ':' ∉ (Pbkdf2Tagged.hashPassword kdf c salt password).data := by
  have hdata : (Pbkdf2Tagged.hashPassword kdf c salt password).data =
      Pbkdf2Tagged.PBKDF2_ALGORITHM.data ++ '$' :: (natToDec c ++ '$' ::
        (hexEncode salt ++ '$' :: hexEncode (kdf (utf8Bytes password) salt c))) := rfl
  rw [hdata]
  intro hmem
  rcases List.mem_append.mp hmem with hm | hm
  · exact absurd hm (by decide)
  · rcases List.mem_cons.mp hm with he | hm
    · exact absurd he (by decide)
    · rcases List.mem_append.mp hm with hm | hm
      · exact natToDec_no_colon c hm
      · rcases List.mem_cons.mp hm with he | hm
        · exact absurd he (by decide)
        · rcases List.mem_append.mp hm with hm | hm
          · exact hexEncode_no_colon salt hsb hm
          · rcases List.mem_cons.mp hm with he | hm
            · exact absurd he (by decide)
            · exact hexEncode_no_colon _ hkb hm

theorem parseColonCred_single (l : List Char) (h : ':' ∉ l) :
    Auth.parseColonCred l = none := by
  unfold Auth.parseColonCred
  rw [jsSplitChar_of_not_mem ':' l h]
  simp

theorem parseDollarCred_single (l : List Char) (h : '$' ∉ l) :
    Pbkdf2Tagged.parseDollarCred l = none := by
  unfold Pbkdf2Tagged.parseDollarCred
  rw [jsSplitChar_of_not_mem '$' l h]
  simp

/-! ## Claim theorems -/

/-- C1: round-trip.  For every non-empty plaintext password, verifying the
freshly produced stored credential against the same plaintext succeeds for
both paired implementations: the `src/auth.ts` colon-format pair (sharing
its inline iteration count) and the `src/unnamed/part_010` dollar-format
pair.  The hex parse in verify inverts the hex encoding in hash and the
re-derived key equals the stored key; the key-derivation primitive is any
function meeting the platform contract of the 256-bit `deriveBits` call
(32 output bytes, each below 256), the salt is the 16 random bytes, and
the iteration count is any value the platform accepts. -/
theorem C1_roundtrip (kdf : Auth.Kdf) (iterations : Nat) (salt : List Nat)
    (password : String) (hpw : password ≠ "")
    (hs16 : salt.length = 16) (hsb : ∀ b ∈ salt, b < 256)
    (hkdf : ∀ p s i, (kdf p s i).length = 32 ∧ ∀ b ∈ kdf p s i, b < 256)
    (hit1 : 0 < iterations) (hit2 : iterations < 4294967296) :
    Auth.verifyPassword kdf iterations
        (Auth.hashPassword kdf iterations salt password) password = true ∧
    Pbkdf2Tagged.verifyPassword kdf
        (Pbkdf2Tagged.hashPassword kdf iterations salt password) password = true := by
  have hkl := (hkdf (utf8Bytes password) salt iterations).1
  have hkb := (hkdf (utf8Bytes password) salt iterations).2
  have hkne : kdf (utf8Bytes password) salt iterations ≠ [] := by
    intro h0
    rw [h0] at hkl
    simp at hkl
  have hsne : salt ≠ [] := by
    intro h0
    rw [h0] at hs16
    simp at hs16
  constructor
  · rw [verifyPassword_parse,
      parseColonCred_hash kdf iterations salt password hsne hsb hkne hkb]
    have h0 : (cmpLoop 0 (kdf (utf8Bytes password) salt iterations)
        (kdf (utf8Bytes password) salt iterations)).1 = 0 :=
      (cmpLoop_fst _ _ 0 rfl).mpr ⟨rfl, rfl⟩
    simp [h0]
  · rw [verifyPbkdf2_parse,
      parseDollarCred_hash kdf iterations salt password hit1 hit2 hsb hkb]
    simp

/-- C1 witness: the round-trip at a concrete password, salt and
key-derivation function. -/
theorem C1_roundtrip_witness :
    Auth.verifyPassword kdfConst 100
        (Auth.hashPassword kdfConst 100 (List.replicate 16 0) "pw") "pw" = true ∧
    Pbkdf2Tagged.verifyPassword kdfConst
        (Pbkdf2Tagged.hashPassword kdfConst 100 (List.replicate 16 0) "pw") "pw" = true :=
  C1_roundtrip kdfConst 100 (List.replicate 16 0) "pw" (by decide) (by decide)
    (by decide) kdfConst_spec (by decide) (by decide)

/-- C2 counterexample: in `src/auth.ts` the iteration count used by
`verifyPassword` is the inline module constant, not a value recovered from
the stored credential (the colon format stores no count at all).  Hashing
with count 100 and verifying after the inline constant has been changed to
200 rejects the very password that was hashed, refuting the claimed
backward-compatibility scenario for this implementation. -/
theorem C2_counterexample :
    Auth.verifyPassword kdfConst 200
      (Auth.hashPassword kdfConst 100 (List.replicate 16 0) "pw") "pw" = false := by
  decide

/-- C2 amended: the `src/unnamed/part_010` verifier recovers the iteration
count from the stored credential string itself: a credential hashed with
any admissible count `c1` parses back to exactly `c1` and still verifies
correctly (its verifier takes no count parameter, so later changes to the
module default cannot affect it).  The `src/auth.ts` colon-format verifier
instead re-derives with its inline constant and has no such backward
compatibility (see the counterexample). -/
theorem C2_iterations_from_stored (kdf : Auth.Kdf) (c1 : Nat) (salt : List Nat)
    (password : String) (hc1 : 0 < c1) (hc2 : c1 < 4294967296)
    (hsb : ∀ b ∈ salt, b < 256)
    (hkdf : ∀ p s i, (kdf p s i).length = 32 ∧ ∀ b ∈ kdf p s i, b < 256) :
    Pbkdf2Tagged.parseDollarCred
        (Pbkdf2Tagged.hashPassword kdf c1 salt password).data =
      some (c1, salt, kdf (utf8Bytes password) salt c1) ∧
    Pbkdf2Tagged.verifyPassword kdf
        (Pbkdf2Tagged.hashPassword kdf c1 salt password) password = true := by
  have hkb := (hkdf (utf8Bytes password) salt c1).2
  refine ⟨parseDollarCred_hash kdf c1 salt password hc1 hc2 hsb hkb, ?_⟩
  rw [verifyPbkdf2_parse, parseDollarCred_hash kdf c1 salt password hc1 hc2 hsb hkb]
  simp

/-- C2 witness: a dollar-format credential hashed with count 1000 parses
back to 1000 and verifies, at concrete inputs. -/
theorem C2_iterations_from_stored_witness :
    Pbkdf2Tagged.parseDollarCred
        (Pbkdf2Tagged.hashPassword kdfConst 1000 (List.replicate 16 7) "pw").data =
      some (1000, List.replicate 16 7, kdfConst (utf8Bytes "pw") (List.replicate 16 7) 1000) ∧
    Pbkdf2Tagged.verifyPassword kdfConst
        (Pbkdf2Tagged.hashPassword kdfConst 1000 (List.replicate 16 7) "pw") "pw" = true :=
  C2_iterations_from_stored kdfConst 1000 (List.replicate 16 7) "pw" (by decide)
    (by decide) (by decide) kdfConst_spec

/-- C3 counterexample: the credential produced by the `hashPassword` of
`src/auth.ts` consists of two colon-separated fields, and of a single
field under the dollar delimiter — not of four delimited fields as
claimed. -/
theorem C3_counterexample :
    (jsSplitChar ':'
        (Auth.hashPassword kdfConst 100 (List.replicate 16 0) "pw").data).length = 2 ∧
    (jsSplitChar '$'
        (Auth.hashPassword kdfConst 100 (List.replicate 16 0) "pw").data).length = 1 := by
  decide

/-- C3 amended: only the `src/unnamed/part_010` hash returns a
self-describing four-field dollar-separated credential (algorithm tag,
decimal iteration count, hex salt, hex key); the `src/auth.ts` hash
returns two colon-separated fields (hex salt, hex key) with no algorithm
tag and no iteration count. -/
theorem C3_fields (kdf : Auth.Kdf) (iterations : Nat) (salt : List Nat)
    (password : String) (hpw : password ≠ "") (hsb : ∀ b ∈ salt, b < 256)
    (hkdf : ∀ p s i, (kdf p s i).length = 32 ∧ ∀ b ∈ kdf p s i, b < 256) :
    jsSplitChar '$' (Pbkdf2Tagged.hashPassword kdf iterations salt password).data =
      [Pbkdf2Tagged.PBKDF2_ALGORITHM.data, natToDec iterations, hexEncode salt,
        hexEncode (kdf (utf8Bytes password) salt iterations)] ∧
    jsSplitChar ':' (Auth.hashPassword kdf iterations salt password).data =
      [hexEncode salt, hexEncode (kdf (utf8Bytes password) salt iterations)] := by
  have hkb := (hkdf (utf8Bytes password) salt iterations).2
  exact ⟨hashPbkdf2_split kdf iterations salt password hsb hkb,
    hashPassword_split kdf iterations salt password hsb hkb⟩

/-- C3 witness: the field lists of both hash outputs at concrete inputs. -/
theorem C3_fields_witness :
    jsSplitChar '$' (Pbkdf2Tagged.hashPassword kdfConst 100 (List.replicate 16 0) "pw").data =
      [Pbkdf2Tagged.PBKDF2_ALGORITHM.data, natToDec 100, hexEncode (List.replicate 16 0),
        hexEncode (kdfConst (utf8Bytes "pw") (List.replicate 16 0) 100)] ∧
    jsSplitChar ':' (Auth.hashPassword kdfConst 100 (List.replicate 16 0) "pw").data =
      [hexEncode (List.replicate 16 0),
        hexEncode (kdfConst (utf8Bytes "pw") (List.replicate 16 0) 100)] :=
  C3_fields kdfConst 100 (List.replicate 16 0) "pw" (by decide) (by decide) kdfConst_spec

/-- C4 counterexample: a stored credential whose salt field is the
odd-length hex string "abc" is not rejected by either verifier.  In
`src/auth.ts` the `/.{2}/g` match silently drops the trailing character,
and in `src/unnamed/part_010` the `Uint8Array` length truncation in
`hexToBuffer` does the same (the salt parses to the single byte 0xab in
both), so when the key field matches the derived key the credential
verifies true — refuting the claim that odd-length-hex stored strings
always verify false. -/
theorem C4_counterexample :
    Auth.verifyPassword kdfConst 100
      (String.mk ('a' :: 'b' :: 'c' :: ':' :: hexEncode (List.replicate 32 100)))
      "pw" = true ∧
    Pbkdf2Tagged.verifyPassword kdfConst
      (String.mk ("PBKDF2$100$abc$".data ++ hexEncode (List.replicate 32 100)))
      "pw" = true := by
  constructor
  · decide
  · decide

/-- C4 amended: both verifiers are total Boolean functions: every path on
which the JavaScript code throws is caught by the `try`/`catch` and
resolves to `false`, and every stored string rejected by the parse checks
yields `false`.  The only qualification, forced by the counterexample, is
that an odd trailing hex character in a hex field of either format is
truncated rather than rejected — by the regex match in the colon format
and by the `Uint8Array` length truncation in the dollar format — so such
a credential can still verify true when the remaining bytes match. -/
theorem C4_no_throw (kdf : Auth.Kdf) (iterations : Nat) (stored password : String) :
    (Auth.verifyBody kdf iterations stored.data password.data = .error () →
      Auth.verifyPassword kdf iterations stored password = false) ∧
    (Auth.parseColonCred stored.data = none →
      Auth.verifyPassword kdf iterations stored password = false) ∧
    (Pbkdf2Tagged.verifyBody kdf stored.data password.data = .error () →
      Pbkdf2Tagged.verifyPassword kdf stored password = false) ∧
    (Pbkdf2Tagged.parseDollarCred stored.data = none →
      Pbkdf2Tagged.verifyPassword kdf stored password = false) := by
  refine ⟨?_, ?_, ?_, ?_⟩
  · intro h
    unfold Auth.verifyPassword
    rw [h]
  · intro h
    rw [verifyPassword_parse, h]
  · intro h
    unfold Pbkdf2Tagged.verifyPassword
    rw [h]
  · intro h
    rw [verifyPbkdf2_parse, h]

/-- C4 witness: an empty stored string, a one-character salt field (on
which the JavaScript code throws at the null regex match and is caught),
a non-numeric dollar-format count (on which `deriveBits` throws and is
caught), and a wrongly-delimited dollar-format string all verify false. -/
theorem C4_no_throw_witness :
    Auth.verifyPassword kdfConst 100 "" "pw" = false ∧
    Auth.verifyPassword kdfConst 100 "a:b" "pw" = false ∧
    Pbkdf2Tagged.verifyPassword kdfConst "PBKDF2$iter$00$0707" "pw" = false ∧
    Pbkdf2Tagged.verifyPassword kdfConst "nodollars" "pw" = false :=
  ⟨(C4_no_throw kdfConst 100 "" "pw").2.1 (by decide),
    (C4_no_throw kdfConst 100 "a:b" "pw").1 (by rfl),
    (C4_no_throw kdfConst 100 "PBKDF2$iter$00$0707" "pw").2.2.1 (by rfl),
    (C4_no_throw kdfConst 100 "nodollars" "pw").2.2.2 (by decide)⟩

/-- C5: each verifier returns true exactly when the re-derived key has the
same length and bytes as the key recovered from the stored credential, and
returns false on every parse failure: for `src/auth.ts` a missing or empty
colon field or an unmatchable hex field; for `src/unnamed/part_010` a
field count other than four, an algorithm-tag mismatch or an unusable
iteration count; for the scrypt verifier of `src/unnamed/part_009` a
missing or empty colon field.  The XOR-accumulate loop result of
`src/auth.ts` is zero exactly when the two equal-length byte arrays are
equal. -/
theorem C5_verify_iff_match (kdf : Auth.Kdf)
    (scryptFn : List Nat → List Nat → Nat → Nat → List Nat) (iterations : Nat)
    (stored password : String) :
    (∀ salt expectedKey, Auth.parseColonCred stored.data = some (salt, expectedKey) →
      (Auth.verifyPassword kdf iterations stored password = true ↔
        kdf (utf8Bytes password) salt iterations = expectedKey)) ∧
    (Auth.parseColonCred stored.data = none →
      Auth.verifyPassword kdf iterations stored password = false) ∧
    (∀ its salt storedHash,
      Pbkdf2Tagged.parseDollarCred stored.data = some (its, salt, storedHash) →
      (Pbkdf2Tagged.verifyPassword kdf stored password = true ↔
        kdf (utf8Bytes password) salt its = storedHash)) ∧
    (Pbkdf2Tagged.parseDollarCred stored.data = none →
      Pbkdf2Tagged.verifyPassword kdf stored password = false) ∧
    (∀ saltText keyBuffer,
      ScryptAuth.parseColonScrypt stored.data = some (saltText, keyBuffer) →
      (ScryptAuth.verifyPassword scryptFn stored password = true ↔
        scryptFn (utf8Bytes password) (utf8Bytes (String.mk saltText)) 64 1024 =
          keyBuffer)) ∧
    (ScryptAuth.parseColonScrypt stored.data = none →
      ScryptAuth.verifyPassword scryptFn stored password = false) ∧
    (∀ a b : List Nat, a.length = b.length → ((cmpLoop 0 a b).1 = 0 ↔ a = b)) := by
  refine ⟨?_, ?_, ?_, ?_, ?_, ?_, ?_⟩
  · intro salt expectedKey hparse
    rw [verifyPassword_parse, hparse]
    simp only []
    by_cases hlen : (kdf (utf8Bytes password) salt iterations).length ≠ expectedKey.length
    · rw [if_pos hlen]
      constructor
      · intro h
        exact absurd h (by simp)
      · intro h
        exact absurd (congrArg List.length h) hlen
    · rw [if_neg hlen]
      push_neg at hlen
      constructor
      · intro h
        exact ((cmpLoop_fst _ _ 0 hlen).mp (by simpa using h)).2
      · intro h
        have h0 := (cmpLoop_fst _ _ 0 hlen).mpr ⟨rfl, h⟩
        simpa using h0
  · intro h
    rw [verifyPassword_parse, h]
  · intro its salt storedHash hparse
    rw [verifyPbkdf2_parse, hparse]
    simp only []
    by_cases hlen : storedHash.length ≠ (kdf (utf8Bytes password) salt its).length
    · rw [if_pos hlen]
      constructor
      · intro h
        exact absurd h (by simp)
      · intro h
        exact absurd (congrArg List.length h.symm) hlen
    · rw [if_neg hlen]
      rw [beq_iff_eq]
      exact eq_comm
  · intro h
    rw [verifyPbkdf2_parse, h]
  · intro saltText keyBuffer hparse
    rw [verifyScrypt_parse, hparse]
    simp only []
    by_cases hlen : (scryptFn (utf8Bytes password) (utf8Bytes (String.mk saltText))
        64 1024).length ≠ keyBuffer.length
    · rw [if_pos hlen]
      constructor
      · intro h
        exact absurd h (by simp)
      · intro h
        exact absurd (congrArg List.length h) hlen
    · rw [if_neg hlen]
      exact beq_iff_eq
  · intro h
    rw [verifyScrypt_parse, h]
  · intro a b hl
    rw [cmpLoop_fst a b 0 hl]
    simp

/-- C5 witness: the colon-format equivalence instantiated on a freshly
hashed credential, the dollar-format parse-failure clause on a
wrong-tag credential, and the scrypt equivalence on a concrete stored
string, each with the parse outcome computed concretely. -/
theorem C5_verify_iff_match_witness :
    (Auth.verifyPassword kdfConst 100
        (Auth.hashPassword kdfConst 100 (List.replicate 16 0) "pw") "pw" = true ↔
      kdfConst (utf8Bytes "pw") (List.replicate 16 0) 100 =
        kdfConst (utf8Bytes "pw") (List.replicate 16 0) 100) ∧
    Pbkdf2Tagged.verifyPassword kdfConst "SCRYPT$100$00$0707" "pw" = false ∧
    (ScryptAuth.verifyPassword scryptConst "00:0707" "pw" = true ↔
      scryptConst (utf8Bytes "pw") (utf8Bytes (String.mk ['0', '0'])) 64 1024 = [7, 7]) :=
  ⟨(C5_verify_iff_match kdfConst scryptConst 100
      (Auth.hashPassword kdfConst 100 (List.replicate 16 0) "pw") "pw").1
    (List.replicate 16 0) (kdfConst (utf8Bytes "pw") (List.replicate 16 0) 100)
    (by decide),
  (C5_verify_iff_match kdfConst scryptConst 100 "SCRYPT$100$00$0707" "pw").2.2.2.1
    (by decide),
  (C5_verify_iff_match kdfConst scryptConst 100 "00:0707" "pw").2.2.2.2.1
    ['0', '0'] [7, 7] (by decide)⟩

/-- C6: salt randomization.  Two `hashPassword` calls on the same
plaintext produce different stored credential strings whenever the two
independently drawn 16-byte salts differ, in both cited implementations:
the salt hex occupies a fixed-width field of the output (the first colon
field in `src/auth.ts`, the third dollar field in `src/unnamed/part_010`),
so distinct salts force distinct outputs. -/
theorem C6_salt_randomization (kdf : Auth.Kdf) (iterations : Nat) (password : String)
    (salt1 salt2 : List Nat) (h1 : salt1.length = 16) (h2 : salt2.length = 16)
    (hb1 : ∀ b ∈ salt1, b < 256) (hb2 : ∀ b ∈ salt2, b < 256) (hne : salt1 ≠ salt2) :
    (Auth.hashPassword kdf iterations salt1 password ≠
      Auth.hashPassword kdf iterations salt2 password) ∧
    (Pbkdf2Tagged.hashPassword kdf iterations salt1 password ≠
      Pbkdf2Tagged.hashPassword kdf iterations salt2 password) := by
  have hlen : (hexEncode salt1).length = (hexEncode salt2).length := by
    rw [hexEncode_length _ hb1, hexEncode_length _ hb2, h1, h2]
  constructor
  · intro he
    have hdata : hexEncode salt1 ++ ':' ::
        hexEncode (kdf (utf8Bytes password) salt1 iterations) =
        hexEncode salt2 ++ ':' :: hexEncode (kdf (utf8Bytes password) salt2 iterations) :=
      congrArg String.data he
    exact hne (hexEncode_inj salt1 salt2 hb1 hb2 (List.append_inj hdata hlen).1)
  · intro he
    have hdata : Pbkdf2Tagged.PBKDF2_ALGORITHM.data ++ '$' ::
        (natToDec iterations ++ '$' :: (hexEncode salt1 ++ '$' ::
          hexEncode (kdf (utf8Bytes password) salt1 iterations))) =
        Pbkdf2Tagged.PBKDF2_ALGORITHM.data ++ '$' ::
        (natToDec iterations ++ '$' :: (hexEncode salt2 ++ '$' ::
          hexEncode (kdf (utf8Bytes password) salt2 iterations))) :=
      congrArg String.data he
    have e1 := List.append_cancel_left hdata
    injection e1 with _ e2
    have e3 := List.append_cancel_left e2
    injection e3 with _ e4
    exact hne (hexEncode_inj salt1 salt2 hb1 hb2 (List.append_inj e4 hlen).1)

/-- C6 witness: two concrete distinct 16-byte salts yield distinct stored
credentials for the same password under both implementations. -/
theorem C6_salt_randomization_witness :
    (Auth.hashPassword kdfConst 100 (List.replicate 16 0) "pw" ≠
      Auth.hashPassword kdfConst 100 (1 :: List.replicate 15 0) "pw") ∧
    (Pbkdf2Tagged.hashPassword kdfConst 100 (List.replicate 16 0) "pw" ≠
      Pbkdf2Tagged.hashPassword kdfConst 100 (1 :: List.replicate 15 0) "pw") :=
  C6_salt_randomization kdfConst 100 "pw" (List.replicate 16 0)
    (1 :: List.replicate 15 0) (by decide) (by decide) (by decide) (by decide) (by decide)

/-- C7: in both implementations the salt passed to the key-derivation call
is drawn as exactly 16 bytes from the platform random source
(`crypto.getRandomValues(new Uint8Array(16))` in `src/auth.ts`, the
constant `PBKDF2_SALT_LENGTH = 16` in `src/unnamed/part_010`) and the
derived key is requested as 256 bits, i.e. exactly 32 bytes; consequently
the salt field of every produced credential is 32 hex characters and the
key field 64.  The cryptographic quality of the random source is a
platform property outside the model; its length contract is the
hypothesis `hrand` and the `deriveBits` output-length contract is
`hkdf`. -/
theorem C7_lengths (kdf : Auth.Kdf) (iterations : Nat) (rand : Nat → List Nat)
    (password : String)
    (hrand : ∀ n, (rand n).length = n ∧ ∀ b ∈ rand n, b < 256)
    (hkdf : ∀ p s i, (kdf p s i).length = 32 ∧ ∀ b ∈ kdf p s i, b < 256) :
    (rand 16).length = 16 ∧
    (kdf (utf8Bytes password) (rand 16) iterations).length = 32 ∧
    jsSplitChar ':' (Auth.hashPasswordRand kdf iterations rand password).data =
      [hexEncode (rand 16), hexEncode (kdf (utf8Bytes password) (rand 16) iterations)] ∧
    jsSplitChar '$' (Pbkdf2Tagged.hashPasswordRand kdf iterations rand password).data =
      [Pbkdf2Tagged.PBKDF2_ALGORITHM.data, natToDec iterations, hexEncode (rand 16),
        hexEncode (kdf (utf8Bytes password) (rand 16) iterations)] ∧
    (hexEncode (rand 16)).length = 32 ∧
    (hexEncode (kdf (utf8Bytes password) (rand 16) iterations)).length = 64 := by
  have hr := hrand 16
  have hk := hkdf (utf8Bytes password) (rand 16) iterations
  refine ⟨hr.1, hk.1, ?_, ?_, ?_, ?_⟩
  · exact hashPassword_split kdf iterations (rand 16) password hr.2 hk.2
  · exact hashPbkdf2_split kdf iterations (rand 16) password hr.2 hk.2
  · rw [hexEncode_length _ hr.2, hr.1]
  · rw [hexEncode_length _ hk.2, hk.1]

/-- C7 witness: the lengths and field lists at a concrete random source
and derivation function. -/
theorem C7_lengths_witness :
    (randZero 16).length = 16 ∧
    (kdfConst (utf8Bytes "pw") (randZero 16) 100).length = 32 ∧
    jsSplitChar ':' (Auth.hashPasswordRand kdfConst 100 randZero "pw").data =
      [hexEncode (randZero 16), hexEncode (kdfConst (utf8Bytes "pw") (randZero 16) 100)] ∧
    jsSplitChar '$' (Pbkdf2Tagged.hashPasswordRand kdfConst 100 randZero "pw").data =
      [Pbkdf2Tagged.PBKDF2_ALGORITHM.data, natToDec 100, hexEncode (randZero 16),
        hexEncode (kdfConst (utf8Bytes "pw") (randZero 16) 100)] ∧
    (hexEncode (randZero 16)).length = 32 ∧
    (hexEncode (kdfConst (utf8Bytes "pw") (randZero 16) 100)).length = 64 :=
  C7_lengths kdfConst 100 randZero "pw"
    (fun n => ⟨by simp [randZero], by
      intro b hb
      simp only [randZero, List.mem_replicate] at hb
      omega⟩)
    kdfConst_spec

/-- C8: timing safety of the final key comparison of `src/auth.ts`, in the
loop-iteration cost model: the number of iterations the comparison loop
executes equals the derived-key length and is identical for any two
equal-length expected keys, independent of where (or whether) the first
differing byte occurs. -/
theorem C8_comparison_steps (a b b2 : List Nat)
    (hb : b.length = a.length) (hb2 : b2.length = a.length) :
    (cmpLoop 0 a b).2 = (cmpLoop 0 a b2).2 ∧ (cmpLoop 0 a b).2 = a.length := by
  rw [cmpLoop_snd, cmpLoop_snd, hb, hb2]
  simp

/-- C8 witness: a key differing in the first byte and a key differing in
the last byte take the same number of comparison iterations. -/
theorem C8_comparison_steps_witness :
    (cmpLoop 0 [1, 2, 3] [9, 2, 3]).2 = (cmpLoop 0 [1, 2, 3] [1, 2, 9]).2 ∧
    (cmpLoop 0 [1, 2, 3] [9, 2, 3]).2 = ([1, 2, 3] : List Nat).length :=
  C8_comparison_steps [1, 2, 3] [9, 2, 3] [1, 2, 9] (by decide) (by decide)

/-- C9: cross-revision incompatibility.  Every credential produced by the
two-field colon-format `hashPassword` is rejected by the four-field
dollar-format `verifyPassword` (its dollar split yields a single field,
not four), and every credential produced by the dollar-format
`hashPassword` is rejected by the colon-format `verifyPassword` (its colon
split yields a single field, so the key field is missing), for any
candidate password and any verifier-side derivation function; neither
verifier dispatches on the embedded algorithm tag.  The scrypt verifier of
`src/unnamed/part_009` shares the colon format's two-field guard
verbatim. -/
theorem C9_cross_format_reject (kdf kdf2 : Auth.Kdf) (iterations iterations2 c : Nat)
    (salt : List Nat) (password password2 : String)
    (hsb : ∀ b ∈ salt, b < 256)
    (hkb : ∀ b ∈ kdf (utf8Bytes password) salt iterations, b < 256)
    (hkb2 : ∀ b ∈ kdf (utf8Bytes password) salt c, b < 256) :
    Pbkdf2Tagged.verifyPassword kdf2 (Auth.hashPassword kdf iterations salt password)
      password2 = false ∧
    Auth.verifyPassword kdf2 iterations2 (Pbkdf2Tagged.hashPassword kdf c salt password)
      password2 = false := by
  constructor
  · rw [verifyPbkdf2_parse, parseDollarCred_single _
      (colon_data_no_dollar kdf iterations salt password hsb hkb)]
  · rw [verifyPassword_parse, parseColonCred_single _
      (dollar_data_no_colon kdf c salt password hsb hkb2)]

/-- C9 witness: cross-format rejection at concrete inputs. -/
theorem C9_cross_format_reject_witness :
    Pbkdf2Tagged.verifyPassword kdfConst
      (Auth.hashPassword kdfConst 100 (List.replicate 16 0) "pw") "pw" = false ∧
    Auth.verifyPassword kdfConst 100
      (Pbkdf2Tagged.hashPassword kdfConst 100 (List.replicate 16 0) "pw") "pw" = false :=
  C9_cross_format_reject kdfConst kdfConst 100 100 100 (List.replicate 16 0) "pw" "pw"
    (by decide) (by decide) (by decide)

/-- C10 counterexample: the first `getAuth` revision's validity test
additionally requires the `SESSIONS` binding.  With an environment whose
DB binding has a `prepare` function but whose `SESSIONS` binding is
missing — a valid environment in the claim's sense, as witnessed by the
`shouldCache` predicate of the second revision which is exactly the
claim's condition — two successive calls return two distinct fresh
instances instead of one cached instance. -/
theorem C10_counterexample :
    AuthFactory.shouldCache ⟨some ⟨true⟩, false, "", "", ""⟩ = true ∧
    (AuthFactory.getAuth ⟨some ⟨true⟩, false, "", "", ""⟩ ⟨none, 0⟩).1 ≠
      (AuthFactory.getAuth ⟨some ⟨true⟩, false, "", "", ""⟩
        (AuthFactory.getAuth ⟨some ⟨true⟩, false, "", "", ""⟩ ⟨none, 0⟩).2).1 := by
  decide

/-- C10 amended: with each revision's own validity predicate — the first
`getAuth` requires a DB binding with `prepare` and the `SESSIONS` binding,
the second only a DB binding with `prepare` — the claimed behaviour holds:
a call with a valid environment caches the instance it returns; a
subsequent call with any valid environment returns exactly the cached
instance and leaves the state unchanged, ignoring the new environment's
bindings; and a call with an invalid environment returns a freshly
allocated instance and leaves the cache unchanged. -/
theorem C10_caching :
    (∀ env st, AuthFactory.isEnvValid env = true →
      (AuthFactory.getAuth env st).2.cachedAuth =
        some (AuthFactory.getAuth env st).1) ∧
    (∀ env st a, AuthFactory.isEnvValid env = true → st.cachedAuth = some a →
      AuthFactory.getAuth env st = (a, st)) ∧
    (∀ env st, AuthFactory.isEnvValid env = false →
      (AuthFactory.getAuth env st).1 = ⟨st.nextId, env⟩ ∧
      (AuthFactory.getAuth env st).2.cachedAuth = st.cachedAuth) ∧
    (∀ env st, AuthFactory.shouldCache env = true →
      (AuthFactory.getAuthV2 env st).2.cachedAuth =
        some (AuthFactory.getAuthV2 env st).1) ∧
    (∀ env st a, AuthFactory.shouldCache env = true → st.cachedAuth = some a →
      AuthFactory.getAuthV2 env st = (a, st)) ∧
    (∀ env st, AuthFactory.shouldCache env = false →
      (AuthFactory.getAuthV2 env st).1 = ⟨st.nextId, env⟩ ∧
      (AuthFactory.getAuthV2 env st).2.cachedAuth = st.cachedAuth) := by
  refine ⟨?_, ?_, ?_, ?_, ?_, ?_⟩
  · intro env st hv
    unfold AuthFactory.getAuth
    cases hcache : st.cachedAuth with
    | some a => simp [hv, hcache]
    | none => simp [hv, hcache]
  · intro env st a hv hcache
    unfold AuthFactory.getAuth
    rw [hcache]
    simp [hv]
  · intro env st hv
    unfold AuthFactory.getAuth
    cases hcache : st.cachedAuth with
    | some a => simp [hv, hcache]
    | none => simp [hv, hcache]
  · intro env st hv
    unfold AuthFactory.getAuthV2
    cases hcache : st.cachedAuth with
    | some a => simp [hv, hcache]
    | none => simp [hv, hcache]
  · intro env st a hv hcache
    unfold AuthFactory.getAuthV2
    rw [hcache]
    simp [hv, hcache]
  · intro env st hv
    unfold AuthFactory.getAuthV2
    cases hcache : st.cachedAuth with
    | some a => simp [hv, hcache]
    | none => simp [hv, hcache]

/-- C10 witness: the caching behaviour at concrete environments — a first
valid call caches its instance; a second call with a *different* valid
environment returns the instance cached from the first; an invalid call
returns a fresh uncached instance; and likewise for the second
revision. -/
theorem C10_caching_witness :
    (AuthFactory.getAuth ⟨some ⟨true⟩, true, "s", "i", "c"⟩ ⟨none, 0⟩).2.cachedAuth =
      some (AuthFactory.getAuth ⟨some ⟨true⟩, true, "s", "i", "c"⟩ ⟨none, 0⟩).1 ∧
    AuthFactory.getAuth ⟨some ⟨true⟩, true, "x", "y", "z"⟩
        ⟨some ⟨0, ⟨some ⟨true⟩, true, "s", "i", "c"⟩⟩, 1⟩ =
      (⟨0, ⟨some ⟨true⟩, true, "s", "i", "c"⟩⟩,
        ⟨some ⟨0, ⟨some ⟨true⟩, true, "s", "i", "c"⟩⟩, 1⟩) ∧
    ((AuthFactory.getAuth ⟨none, false, "", "", ""⟩
        ⟨some ⟨0, ⟨some ⟨true⟩, true, "s", "i", "c"⟩⟩, 1⟩).1 =
      ⟨1, ⟨none, false, "", "", ""⟩⟩ ∧
     (AuthFactory.getAuth ⟨none, false, "", "", ""⟩
        ⟨some ⟨0, ⟨some ⟨true⟩, true, "s", "i", "c"⟩⟩, 1⟩).2.cachedAuth =
      some ⟨0, ⟨some ⟨true⟩, true, "s", "i", "c"⟩⟩) ∧
    (AuthFactory.getAuthV2 ⟨some ⟨true⟩, false, "s", "i", "c"⟩ ⟨none, 0⟩).2.cachedAuth =
      some (AuthFactory.getAuthV2 ⟨some ⟨true⟩, false, "s", "i", "c"⟩ ⟨none, 0⟩).1 ∧
    AuthFactory.getAuthV2 ⟨some ⟨true⟩, false, "x", "y", "z"⟩
        ⟨some ⟨0, ⟨some ⟨true⟩, false, "s", "i", "c"⟩⟩, 1⟩ =
      (⟨0, ⟨some ⟨true⟩, false, "s", "i", "c"⟩⟩,
        ⟨some ⟨0, ⟨some ⟨true⟩, false, "s", "i", "c"⟩⟩, 1⟩) ∧
    ((AuthFactory.getAuthV2 ⟨none, true, "", "", ""⟩
        ⟨some ⟨0, ⟨some ⟨true⟩, false, "s", "i", "c"⟩⟩, 1⟩).1 =
      ⟨1, ⟨none, true, "", "", ""⟩⟩ ∧
     (AuthFactory.getAuthV2 ⟨none, true, "", "", ""⟩
        ⟨some ⟨0, ⟨some ⟨true⟩, false, "s", "i", "c"⟩⟩, 1⟩).2.cachedAuth =
      some ⟨0, ⟨some ⟨true⟩, false, "s", "i", "c"⟩⟩) :=
  ⟨C10_caching.1 ⟨some ⟨true⟩, true, "s", "i", "c"⟩ ⟨none, 0⟩ (by decide),
    C10_caching.2.1 ⟨some ⟨true⟩, true, "x", "y", "z"⟩
      ⟨some ⟨0, ⟨some ⟨true⟩, true, "s", "i", "c"⟩⟩, 1⟩
      ⟨0, ⟨some ⟨true⟩, true, "s", "i", "c"⟩⟩ (by decide) rfl,
    (C10_caching.2.2.1 ⟨none, false, "", "", ""⟩
      ⟨some ⟨0, ⟨some ⟨true⟩, true, "s", "i", "c"⟩⟩, 1⟩ (by decide)),
    C10_caching.2.2.2.1 ⟨some ⟨true⟩, false, "s", "i", "c"⟩ ⟨none, 0⟩ (by decide),
    C10_caching.2.2.2.2.1 ⟨some ⟨true⟩, false, "x", "y", "z"⟩
      ⟨some ⟨0, ⟨some ⟨true⟩, false, "s", "i", "c"⟩⟩, 1⟩
      ⟨0, ⟨some ⟨true⟩, false, "s", "i", "c"⟩⟩ (by decide) rfl,
    (C10_caching.2.2.2.2.2 ⟨none, true, "", "", ""⟩
      ⟨some ⟨0, ⟨some ⟨true⟩, false, "s", "i", "c"⟩⟩, 1⟩ (by decide))⟩
